import Mathlib

/-!
Verification of the tunnel orchestrator in
`iceoryx2-tunnels/zenoh/src/tunnel.rs`.

The Rust source is shallowly embedded: the two `HashMap` connection
registries become association lists with no-duplicate-key invariants,
the external discovery sources become the list of service descriptors
they yield to the callback (plus a flag saying whether the scan fails
after yielding them), the external connection constructors become
functions returning `Except`, and the `info!`/`error!` logging plus the
fact that a discovery source or a connection was driven at all are
recorded in an explicit event trace.  A `.unwrap()` on a failed
connection creation is modelled as the `panicked` outcome, after which
no further state exists (the Rust process aborts).
-/

set_option autoImplicit false

namespace ZenohTunnel

/-- Embeds `iceoryx2::service::service_id::ServiceId`: an opaque identifier,
compared structurally; its `as_str()` view is the string itself. -/
abbrev ServiceId := String

/-- Embeds `iceoryx2::...::messaging_pattern::MessagingPattern`.  The source
matches `PublishSubscribe(_)` and `Event(_)` and sends every other
variant to a catch-all `_` arm; the remaining variants are kept
abstract here as `RequestResponse` and `Blackboard`. -/
inductive MessagingPattern where
  | PublishSubscribe
  | Event
  | RequestResponse
  | Blackboard
deriving DecidableEq, Repr

/-- Embeds `iceoryx2::...::StaticConfig` as used by `on_discovery`: the
service id (`service_id()`), the human-readable name (`name()`) and
the messaging pattern (`messaging_pattern()`). -/
structure StaticConfig where
  service_id : ServiceId
  name : String
  messaging_pattern : MessagingPattern
deriving DecidableEq, Repr

/-- A bridged connection (`BidirectionalPublishSubscribeConnection` or
`BidirectionalEventConnection`).  Its internals are external to the
core; the core only observes which config it was created from and
whether its `propagate()` succeeds. -/
structure Connection where
  cfg : StaticConfig
  propagateOk : Bool
deriving DecidableEq, Repr

/-- Error of the external `Bidirectional*Connection::create`. -/
inductive ConnectionError where
  | Error
deriving DecidableEq, Repr

/-- The external connection constructors available to `on_discovery`:
`BidirectionalPublishSubscribeConnection::create` and
`BidirectionalEventConnection::create` (the iceoryx node and zenoh
session handles they receive are fixed ambient state of one tunnel). -/
structure Env where
  createPubSub : StaticConfig → Except ConnectionError Connection
  createEvent : StaticConfig → Except ConnectionError Connection

/-- Embeds `Scope` from the source: `Iceoryx` (local), `Zenoh` (remote),
`Both`. -/
inductive Scope where
  | Iceoryx
  | Zenoh
  | Both
deriving DecidableEq, Repr

/-- Embeds `DiscoveryError` from the source. -/
inductive DiscoveryError where
  | Error
deriving DecidableEq, Repr

/-- Embeds `CreationError` from the source. -/
inductive CreationError where
  | Error
deriving DecidableEq, Repr

/-- Observable events of one tunnel operation: a discovery source
being driven (`invokeSource`), the `info!("DISCOVERED(..)...")` log
line, a `connection.propagate()` call being issued, and the
`error!("Failed to propagate..")` log line carrying the service id. -/
inductive LogEvent where
  | invokeSource (domain : Scope)
  | discovered (source : Scope) (pattern : MessagingPattern) (id : ServiceId) (name : String)
  | propagateCalled (pattern : MessagingPattern) (id : ServiceId)
  | propagateFailed (id : ServiceId)
deriving DecidableEq, Repr

/-- A `HashMap<ServiceId, Connection>` registry, embedded as an
association list; `HashMap::insert` of a fresh key is an append, and
the no-duplicate-keys property of a `HashMap` is carried as an
invariant (`WF` below). -/
abbrev Registry := List (ServiceId × Connection)

/-- Embeds `HashMap::contains_key`. -/
def containsKey (m : Registry) (k : ServiceId) : Bool :=
  m.any (fun p => p.1 = k)

/-- Embeds `HashMap::get`: the connection stored under key `k` (first match). -/
def getConn (m : Registry) (k : ServiceId) : Option Connection :=
  match m with
  | [] => none
  | (k', c) :: rest => if k' = k then some c else getConn rest k

/-- Embeds `HashMap::keys`. -/
def keys (m : Registry) : List ServiceId :=
  m.map (fun p => p.1)

/-- Embeds `fn on_discovery` (tunnel.rs lines 239-292): dispatch on the
messaging pattern; for a supported pattern, if the registry does not
yet contain the service id, log `DISCOVERED`, create the connection
(`.unwrap()` — a creation error aborts the process, modelled by
`none`) and insert it; otherwise do nothing.  Unsupported patterns do
nothing. -/
def on_discovery (env : Env) (source : Scope) (iox_service_config : StaticConfig)
    (publish_subscribe_connections event_connections : Registry) :
    Option (Registry × Registry × List LogEvent) :=
  let iox_service_id := iox_service_config.service_id
  match iox_service_config.messaging_pattern with
  | MessagingPattern.PublishSubscribe =>
    if containsKey publish_subscribe_connections iox_service_id then
      some (publish_subscribe_connections, event_connections, [])
    else
      match env.createPubSub iox_service_config with
      | Except.ok connection =>
        some (publish_subscribe_connections ++ [(iox_service_id, connection)],
          event_connections,
          [LogEvent.discovered source MessagingPattern.PublishSubscribe iox_service_id
            iox_service_config.name])
      | Except.error _ => none
  | MessagingPattern.Event =>
    if containsKey event_connections iox_service_id then
      some (publish_subscribe_connections, event_connections, [])
    else
      match env.createEvent iox_service_config with
      | Except.ok connection =>
        some (publish_subscribe_connections,
          event_connections ++ [(iox_service_id, connection)],
          [LogEvent.discovered source MessagingPattern.Event iox_service_id
            iox_service_config.name])
      | Except.error _ => none
  | _ => some (publish_subscribe_connections, event_connections, [])

/-- One external discovery source (`IceoryxDiscovery` or
`ZenohDiscovery`): `yielded` is the list of service descriptors it
passes to the callback, in order; `fails` says whether the scan then
returns an error (already-invoked callbacks stand, per the source
contract). -/
structure DiscoverySource where
  yielded : List StaticConfig
  fails : Bool

/-- The discovery source driving the `on_discovery` callback once per
yielded descriptor, threading the registries through; `none` if some
callback panicked. -/
def runCallbacks (env : Env) (source : Scope) (descs : List StaticConfig)
    (ps ev : Registry) : Option (Registry × Registry × List LogEvent) :=
  match descs with
  | [] => some (ps, ev, [])
  | d :: rest =>
    match on_discovery env source d ps ev with
    | none => none
    | some (ps', ev', log₁) =>
      match runCallbacks env source rest ps' ev' with
      | none => none
      | some (ps'', ev'', log₂) => some (ps'', ev'', log₁ ++ log₂)

/-- Zenoh session handle, kept abstract up to a token so that resource
release can be tracked. -/
structure ZSession where
  token : Nat
deriving DecidableEq, Repr

/-- Embeds `struct Tunnel` (field names as in the source, including the
`connectons` typo): the transport handles and the two registries. -/
structure Tunnel where
  z_session : ZSession
  z_discovery : Nat
  iox_node : Nat
  iox_discovery : Nat
  publish_subscribe_connectons : Registry
  event_connections : Registry
deriving DecidableEq, Repr

/-- Outcome of one `Tunnel::discover` call.  `ok`/`err` carry the
tunnel state after the call (`&mut self`: mutations performed before a
`DiscoveryError` is returned persist) and the event trace; `panicked`
is the aborted process after an `.unwrap()` failure. -/
inductive DiscoverResult where
  | ok (t : Tunnel) (log : List LogEvent)
  | err (t : Tunnel) (log : List LogEvent)
  | panicked
deriving DecidableEq, Repr

/-- Second half of `Tunnel::discover`: the
`if scope == Scope::Zenoh || scope == Scope::Both` branch. -/
def discoverZenohBranch (env : Env) (t : Tunnel) (scope : Scope)
    (z_discovery : DiscoverySource) (log : List LogEvent) : DiscoverResult :=
  if scope = Scope.Zenoh ∨ scope = Scope.Both then
    match runCallbacks env Scope.Zenoh z_discovery.yielded
        t.publish_subscribe_connectons t.event_connections with
    | none => DiscoverResult.panicked
    | some (ps, ev, log₂) =>
      let t₂ : Tunnel := { t with publish_subscribe_connectons := ps, event_connections := ev }
      let fullLog := log ++ LogEvent.invokeSource Scope.Zenoh :: log₂
      if z_discovery.fails then DiscoverResult.err t₂ fullLog
      else DiscoverResult.ok t₂ fullLog
  else DiscoverResult.ok t log

/-- Embeds `Tunnel::discover` (tunnel.rs lines 160-192): if the scope selects
the local (iceoryx) domain, drive the local discovery source with the
`on_discovery` callback and return `DiscoveryError` on failure (`?`);
then likewise for the remote (zenoh) domain. -/
def discover (env : Env) (t : Tunnel) (scope : Scope)
    (iox_discovery z_discovery : DiscoverySource) : DiscoverResult :=
  if scope = Scope.Iceoryx ∨ scope = Scope.Both then
    match runCallbacks env Scope.Iceoryx iox_discovery.yielded
        t.publish_subscribe_connectons t.event_connections with
    | none => DiscoverResult.panicked
    | some (ps, ev, log₁) =>
      let t₁ : Tunnel := { t with publish_subscribe_connectons := ps, event_connections := ev }
      let fullLog := LogEvent.invokeSource Scope.Iceoryx :: log₁
      if iox_discovery.fails then DiscoverResult.err t₁ fullLog
      else discoverZenohBranch env t₁ scope z_discovery fullLog
  else discoverZenohBranch env t scope z_discovery []

/-- One registry entry during `Tunnel::propagate`: the
`connection.propagate()` call, then `error!("Failed to propagate..")`
with the service id if it failed. -/
def propagateEntry (pattern : MessagingPattern) (entry : ServiceId × Connection) :
    List LogEvent :=
  LogEvent.propagateCalled pattern entry.1 ::
    (if entry.2.propagateOk then [] else [LogEvent.propagateFailed entry.1])

/-- Embeds `Tunnel::propagate` (tunnel.rs lines 195-208): iterate the
publish-subscribe registry, then the event registry, calling
`propagate()` on every connection; a failure is logged and iteration
continues.  The Rust function returns `()`: the only observable is the
event trace, which this embedding returns. -/
def propagate (t : Tunnel) : List LogEvent :=
  t.publish_subscribe_connectons.flatMap (propagateEntry MessagingPattern.PublishSubscribe) ++
    t.event_connections.flatMap (propagateEntry MessagingPattern.Event)

/-- Embeds `Tunnel::tunneled_services` (tunnel.rs lines 216-222): the keys of
the publish-subscribe registry chained with the keys of the event
registry, each rendered via `as_str().to_string()`. -/
def tunneled_services (t : Tunnel) : List String :=
  t.publish_subscribe_connectons.map (fun p => p.1) ++
    t.event_connections.map (fun p => p.1)

/-- The four fallible construction steps of `Tunnel::create`, as the
external operations they call: `zenoh::open(..).wait()`,
`ZenohDiscovery::create(&z_session)`,
`NodeBuilder::new()..create::<Service>()`, and
`IceoryxDiscovery::create(..)`.  `none` models the step failing. -/
structure CreateEnv where
  open_z_session : Option ZSession
  create_z_discovery : ZSession → Option Nat
  create_iox_node : Option Nat
  create_iox_discovery : Nat → Option Nat

/-- Outcome of `Tunnel::create`.  On error, `released` lists the zenoh
sessions dropped before returning: per Rust scoping, a local
`z_session` not moved into the returned `Tunnel` is dropped (its
resources released) when `create` returns early via `?`. -/
inductive CreateResult where
  | ok (t : Tunnel)
  | err (e : CreationError) (released : List ZSession)
deriving Repr

/-- Embeds `Tunnel::create` (tunnel.rs lines 113-148): open the zenoh
session, construct zenoh discovery, create the iceoryx node, construct
iceoryx discovery — any failure maps to `CreationError` and returns
early — then assemble the tunnel with two empty registries. -/
def create (env : CreateEnv) : CreateResult :=
  match env.open_z_session with
  | none => CreateResult.err CreationError.Error []
  | some z_session =>
    match env.create_z_discovery z_session with
    | none => CreateResult.err CreationError.Error [z_session]
    | some z_discovery =>
      match env.create_iox_node with
      | none => CreateResult.err CreationError.Error [z_session]
      | some iox_node =>
        match env.create_iox_discovery iox_node with
        | none => CreateResult.err CreationError.Error [z_session]
        | some iox_discovery =>
          CreateResult.ok
            { z_session := z_session
              z_discovery := z_discovery
              iox_node := iox_node
              iox_discovery := iox_discovery
              publish_subscribe_connectons := []
              event_connections := [] }

/-- The tunnel state surviving one `discover` call (`none` when the
process aborted on a `.unwrap()` panic). -/
def stateOf : DiscoverResult → Option Tunnel
  | DiscoverResult.ok t _ => some t
  | DiscoverResult.err t _ => some t
  | DiscoverResult.panicked => none

/-- The event trace of one `discover` call. -/
def logOf : DiscoverResult → List LogEvent
  | DiscoverResult.ok _ l => l
  | DiscoverResult.err _ l => l
  | DiscoverResult.panicked => []

/-- One externally-driven tunnel operation: a surviving `discover`
call against sources satisfying `P`, or a `propagate` tick (which
takes `&self` and cannot change the tunnel state). -/
inductive Step (P : DiscoverySource → Prop) : Tunnel → Tunnel → Prop where
  | discovery (env : Env) (scope : Scope) (i z : DiscoverySource) (t t' : Tunnel)
      (hi : P i) (hz : P z)
      (h : stateOf (discover env t scope i z) = some t') : Step P t t'
  | tick (t : Tunnel) : Step P t t

/-- Tunnel states reachable by any sequence of `discover` and
`propagate` calls whose discovery sources satisfy `P`. -/
def Reaches (P : DiscoverySource → Prop) : Tunnel → Tunnel → Prop :=
  Relation.ReflTransGen (Step P)

/-- No-duplicate keys in both registries: the `HashMap` representation
invariant. -/
def WF (t : Tunnel) : Prop :=
  (keys t.publish_subscribe_connectons).Nodup ∧ (keys t.event_connections).Nodup

/-- The registries partition identities by `f`: the publish-subscribe
registry holds only identities whose pattern is `PublishSubscribe`,
the event registry only `Event` ones. -/
def PatternPartition (f : ServiceId → MessagingPattern) (t : Tunnel) : Prop :=
  (∀ k ∈ keys t.publish_subscribe_connectons, f k = MessagingPattern.PublishSubscribe) ∧
  (∀ k ∈ keys t.event_connections, f k = MessagingPattern.Event)

/-- A discovery source is pattern-consistent with the deployment-wide
pattern assignment `f`: every descriptor it yields carries the pattern
`f` assigns to its identity. -/
def ConsistentSource (f : ServiceId → MessagingPattern) (s : DiscoverySource) : Prop :=
  ∀ cfg ∈ s.yielded, cfg.messaging_pattern = f cfg.service_id

/-- Recogniser for `propagateCalled` events, used to count how many
`connection.propagate()` calls one `Tunnel::propagate` tick issues. -/
def isPropagateCall : LogEvent → Bool
  | LogEvent.propagateCalled _ _ => true
  | _ => false

/-! ### Concrete sample inputs -/

/-- Connection constructors that always succeed, producing a
connection whose own `propagate()` succeeds. -/
def envOk : Env where
  createPubSub := fun cfg => Except.ok ⟨cfg, true⟩
  createEvent := fun cfg => Except.ok ⟨cfg, true⟩

/-- A publish-subscribe connection constructor that always fails. -/
def envPubSubFails : Env where
  createPubSub := fun _ => Except.error ConnectionError.Error
  createEvent := fun cfg => Except.ok ⟨cfg, true⟩

/-- A publish-subscribe service descriptor. -/
def cfgA : StaticConfig := ⟨"svc-a", "service-a", MessagingPattern.PublishSubscribe⟩

/-- A second publish-subscribe service descriptor. -/
def cfgB : StaticConfig := ⟨"svc-b", "service-b", MessagingPattern.PublishSubscribe⟩

/-- An event service descriptor. -/
def cfgE : StaticConfig := ⟨"svc-e", "service-e", MessagingPattern.Event⟩

/-- A descriptor with a messaging pattern `on_discovery` does not
support. -/
def cfgU : StaticConfig := ⟨"svc-u", "service-u", MessagingPattern.RequestResponse⟩

/-- A discovery source yielding only `cfgA`, succeeding. -/
def srcA : DiscoverySource := ⟨[cfgA], false⟩

/-- A discovery source yielding only `cfgB`, succeeding. -/
def srcB : DiscoverySource := ⟨[cfgB], false⟩

/-- A discovery source yielding only `cfgE`, succeeding. -/
def srcE : DiscoverySource := ⟨[cfgE], false⟩

/-- A discovery source yielding `cfgA` and then failing its scan. -/
def srcAfail : DiscoverySource := ⟨[cfgA], true⟩

/-- A discovery source yielding nothing, succeeding. -/
def srcNone : DiscoverySource := ⟨[], false⟩

/-- A construction environment in which all four steps succeed. -/
def cenv₀ : CreateEnv := ⟨some ⟨0⟩, fun _ => some 0, some 0, fun _ => some 0⟩

/-- The tunnel `create cenv₀` yields: empty registries. -/
def tun₀ : Tunnel := ⟨⟨0⟩, 0, 0, 0, [], []⟩

/-- State of `tun₀` after discovering `cfgA` locally with `envOk`. -/
def tunA : Tunnel := ⟨⟨0⟩, 0, 0, 0, [("svc-a", ⟨cfgA, true⟩)], []⟩

/-- State of `tunA` after additionally discovering `cfgB`. -/
def tunAB : Tunnel :=
  ⟨⟨0⟩, 0, 0, 0, [("svc-a", ⟨cfgA, true⟩), ("svc-b", ⟨cfgB, true⟩)], []⟩

/-- State of `tun₀` after discovering `cfgA` locally and `cfgE` remotely. -/
def tunAE : Tunnel := ⟨⟨0⟩, 0, 0, 0, [("svc-a", ⟨cfgA, true⟩)], [("svc-e", ⟨cfgE, true⟩)]⟩

/-- A construction environment whose local-node step fails while the
network session opens successfully. -/
def cenvNodeFails : CreateEnv := ⟨some ⟨7⟩, fun _ => some 0, none, fun _ => some 0⟩

/-- A tunnel holding one failing and one succeeding connection in the
publish-subscribe registry and one succeeding connection in the event
registry. -/
def tunMixed : Tunnel :=
  ⟨⟨0⟩, 0, 0, 0, [("svc-a", ⟨cfgA, false⟩), ("svc-b", ⟨cfgB, true⟩)], [("svc-e", ⟨cfgE, true⟩)]⟩

/-- The deployment-wide pattern assignment of the sample services. -/
def patOf : ServiceId → MessagingPattern :=
  fun k => if k = "svc-e" then MessagingPattern.Event else MessagingPattern.PublishSubscribe

/-! ### Registry lemmas -/

theorem containsKey_iff (m : Registry) (k : ServiceId) :
    containsKey m k = true ↔ k ∈ keys m := by
  simp [containsKey, keys, List.any_eq_true]

theorem containsKey_false_iff (m : Registry) (k : ServiceId) :
    containsKey m k = false ↔ k ∉ keys m := by
  rw [← Bool.not_eq_true, not_iff_not]
  exact containsKey_iff m k

theorem keys_append (m l : Registry) : keys (m ++ l) = keys m ++ keys l := by
  simp [keys]

theorem getConn_append_of_some (m l : Registry) (k : ServiceId) (c : Connection)
    (h : getConn m k = some c) : getConn (m ++ l) k = some c := by
  induction m with
  | nil => simp [getConn] at h
  | cons p rest ih =>
    rcases p with ⟨k', c'⟩
    by_cases hk : k' = k
    · simp only [getConn, hk, if_pos] at h
      simp only [List.cons_append, getConn, hk, if_pos]
      exact h
    · simp only [getConn, hk, if_neg, if_false] at h
      simp only [List.cons_append, getConn, hk, if_neg, if_false]
      exact ih h

/-! ### Case analysis of `on_discovery` -/

/-- Complete characterisation of a non-panicking `on_discovery` run:
either it was a no-op (already-registered or unsupported pattern), or
it appended exactly one connection to the registry matching the
descriptor's pattern. -/
theorem on_discovery_spec (env : Env) (src : Scope) (cfg : StaticConfig)
    (ps ev ps' ev' : Registry) (log : List LogEvent)
    (h : on_discovery env src cfg ps ev = some (ps', ev', log)) :
    (ps' = ps ∧ ev' = ev ∧ log = []) ∨
    (∃ c, cfg.messaging_pattern = MessagingPattern.PublishSubscribe ∧
      env.createPubSub cfg = Except.ok c ∧
      containsKey ps cfg.service_id = false ∧
      ps' = ps ++ [(cfg.service_id, c)] ∧ ev' = ev ∧
      log = [LogEvent.discovered src MessagingPattern.PublishSubscribe cfg.service_id
        cfg.name]) ∨
    (∃ c, cfg.messaging_pattern = MessagingPattern.Event ∧
      env.createEvent cfg = Except.ok c ∧
      containsKey ev cfg.service_id = false ∧
      ps' = ps ∧ ev' = ev ++ [(cfg.service_id, c)] ∧
      log = [LogEvent.discovered src MessagingPattern.Event cfg.service_id cfg.name]) := by
  unfold on_discovery at h
  rcases hm : cfg.messaging_pattern with _ | _ | _ | _
  case PublishSubscribe =>
    rw [hm] at h
    rcases hc : containsKey ps cfg.service_id with _ | _
    case false =>
      simp only [hc, Bool.false_eq_true, if_false] at h
      rcases he : env.createPubSub cfg with e | c
      case error =>
        rw [he] at h
        simp at h
      case ok =>
        rw [he] at h
        simp only [Option.some_inj, Prod.mk.injEq] at h
        obtain ⟨h₁, h₂, h₃⟩ := h
        subst h₁; subst h₂; subst h₃
        right; left
        exact ⟨c, rfl, rfl, rfl, rfl, rfl, rfl⟩
    case true =>
      simp only [hc, if_true] at h
      simp only [Option.some_inj, Prod.mk.injEq] at h
      obtain ⟨h₁, h₂, h₃⟩ := h
      subst h₁; subst h₂; subst h₃
      left; exact ⟨rfl, rfl, rfl⟩
  case Event =>
    rw [hm] at h
    rcases hc : containsKey ev cfg.service_id with _ | _
    case false =>
      simp only [hc, Bool.false_eq_true, if_false] at h
      rcases he : env.createEvent cfg with e | c
      case error =>
        rw [he] at h
        simp at h
      case ok =>
        rw [he] at h
        simp only [Option.some_inj, Prod.mk.injEq] at h
        obtain ⟨h₁, h₂, h₃⟩ := h
        subst h₁; subst h₂; subst h₃
        right; right
        exact ⟨c, rfl, rfl, rfl, rfl, rfl, rfl⟩
    case true =>
      simp only [hc, if_true] at h
      simp only [Option.some_inj, Prod.mk.injEq] at h
      obtain ⟨h₁, h₂, h₃⟩ := h
      subst h₁; subst h₂; subst h₃
      left; exact ⟨rfl, rfl, rfl⟩
  case RequestResponse =>
    rw [hm] at h
    simp only [Option.some_inj, Prod.mk.injEq] at h
    obtain ⟨h₁, h₂, h₃⟩ := h
    subst h₁; subst h₂; subst h₃
    left; exact ⟨rfl, rfl, rfl⟩
  case Blackboard =>
    rw [hm] at h
    simp only [Option.some_inj, Prod.mk.injEq] at h
    obtain ⟨h₁, h₂, h₃⟩ := h
    subst h₁; subst h₂; subst h₃
    left; exact ⟨rfl, rfl, rfl⟩

/-- The function `on_discovery` only ever appends to each registry. -/
theorem on_discovery_extends (env : Env) (src : Scope) (cfg : StaticConfig)
    (ps ev ps' ev' : Registry) (log : List LogEvent)
    (h : on_discovery env src cfg ps ev = some (ps', ev', log)) :
    (∃ l₁, ps' = ps ++ l₁) ∧ (∃ l₂, ev' = ev ++ l₂) := by
  rcases on_discovery_spec env src cfg ps ev ps' ev' log h with
    ⟨h₁, h₂, -⟩ | ⟨c, -, -, -, h₁, h₂, -⟩ | ⟨c, -, -, -, h₁, h₂, -⟩
  · exact ⟨⟨[], by simp [h₁]⟩, ⟨[], by simp [h₂]⟩⟩
  · exact ⟨⟨[(cfg.service_id, c)], h₁⟩, ⟨[], by simp [h₂]⟩⟩
  · exact ⟨⟨[], by simp [h₁]⟩, ⟨[(cfg.service_id, c)], h₂⟩⟩

/-- The function `on_discovery` preserves every existing registry entry. -/
theorem on_discovery_getConn (env : Env) (src : Scope) (cfg : StaticConfig)
    (ps ev ps' ev' : Registry) (log : List LogEvent)
    (h : on_discovery env src cfg ps ev = some (ps', ev', log)) :
    (∀ k c, getConn ps k = some c → getConn ps' k = some c) ∧
    (∀ k c, getConn ev k = some c → getConn ev' k = some c) := by
  obtain ⟨⟨l₁, h₁⟩, ⟨l₂, h₂⟩⟩ := on_discovery_extends env src cfg ps ev ps' ev' log h
  subst h₁; subst h₂
  exact ⟨fun k c hk => getConn_append_of_some ps l₁ k c hk,
    fun k c hk => getConn_append_of_some ev l₂ k c hk⟩

/-- The function `on_discovery` preserves the no-duplicate-keys property of both
registries (an inserted key was checked to be absent). -/
theorem on_discovery_nodup (env : Env) (src : Scope) (cfg : StaticConfig)
    (ps ev ps' ev' : Registry) (log : List LogEvent)
    (h : on_discovery env src cfg ps ev = some (ps', ev', log))
    (hps : (keys ps).Nodup) (hev : (keys ev).Nodup) :
    (keys ps').Nodup ∧ (keys ev').Nodup := by
  rcases on_discovery_spec env src cfg ps ev ps' ev' log h with
    ⟨h₁, h₂, -⟩ | ⟨c, -, -, hc, h₁, h₂, -⟩ | ⟨c, -, -, hc, h₁, h₂, -⟩
  · subst h₁; subst h₂; exact ⟨hps, hev⟩
  · subst h₁; subst h₂
    refine ⟨?_, hev⟩
    rw [keys_append]
    simp only [keys, List.map_cons, List.map_nil]
    rw [List.nodup_append_comm]
    simp only [List.singleton_append, List.nodup_cons]
    exact ⟨(containsKey_false_iff ps cfg.service_id).mp hc, hps⟩
  · subst h₁; subst h₂
    refine ⟨hps, ?_⟩
    rw [keys_append]
    simp only [keys, List.map_cons, List.map_nil]
    rw [List.nodup_append_comm]
    simp only [List.singleton_append, List.nodup_cons]
    exact ⟨(containsKey_false_iff ev cfg.service_id).mp hc, hev⟩

/-- When the processed descriptor's pattern agrees with the global
pattern assignment `f`, `on_discovery` preserves the property that the
publish-subscribe registry holds only `PublishSubscribe` identities and
the event registry only `Event` identities. -/
theorem on_discovery_patternKeys (f : ServiceId → MessagingPattern) (env : Env) (src : Scope)
    (cfg : StaticConfig) (ps ev ps' ev' : Registry) (log : List LogEvent)
    (h : on_discovery env src cfg ps ev = some (ps', ev', log))
    (hcfg : cfg.messaging_pattern = f cfg.service_id)
    (hps : ∀ k ∈ keys ps, f k = MessagingPattern.PublishSubscribe)
    (hev : ∀ k ∈ keys ev, f k = MessagingPattern.Event) :
    (∀ k ∈ keys ps', f k = MessagingPattern.PublishSubscribe) ∧
    (∀ k ∈ keys ev', f k = MessagingPattern.Event) := by
  rcases on_discovery_spec env src cfg ps ev ps' ev' log h with
    ⟨h₁, h₂, -⟩ | ⟨c, hp, -, -, h₁, h₂, -⟩ | ⟨c, hp, -, -, h₁, h₂, -⟩
  · subst h₁; subst h₂; exact ⟨hps, hev⟩
  · subst h₁; subst h₂
    refine ⟨?_, hev⟩
    intro k hk
    rw [keys_append] at hk
    rcases List.mem_append.mp hk with hk | hk
    · exact hps k hk
    · simp only [keys, List.map_cons, List.map_nil, List.mem_singleton] at hk
      subst hk
      rw [← hcfg, hp]
  · subst h₁; subst h₂
    refine ⟨hps, ?_⟩
    intro k hk
    rw [keys_append] at hk
    rcases List.mem_append.mp hk with hk | hk
    · exact hev k hk
    · simp only [keys, List.map_cons, List.map_nil, List.mem_singleton] at hk
      subst hk
      rw [← hcfg, hp]

/-- Every log event emitted by `on_discovery` is a `DISCOVERED` line
tagged with the discovering domain. -/
theorem on_discovery_log (env : Env) (src : Scope) (cfg : StaticConfig)
    (ps ev ps' ev' : Registry) (log : List LogEvent)
    (h : on_discovery env src cfg ps ev = some (ps', ev', log)) :
    ∀ e ∈ log, ∃ p i n, e = LogEvent.discovered src p i n := by
  rcases on_discovery_spec env src cfg ps ev ps' ev' log h with
    ⟨-, -, h₃⟩ | ⟨c, -, -, -, -, -, h₃⟩ | ⟨c, -, -, -, -, -, h₃⟩ <;> subst h₃
  · simp
  · intro e he
    simp only [List.mem_singleton] at he
    exact ⟨_, _, _, he⟩
  · intro e he
    simp only [List.mem_singleton] at he
    exact ⟨_, _, _, he⟩

/-! ### `runCallbacks` lemmas -/

/-- A non-panicking callback run preserves existing entries, preserves
no-duplicate keys, and logs only `DISCOVERED` lines of its domain. -/
theorem runCallbacks_spec (env : Env) (src : Scope) (descs : List StaticConfig) :
    ∀ ps ev ps' ev' log, runCallbacks env src descs ps ev = some (ps', ev', log) →
    (∀ k c, getConn ps k = some c → getConn ps' k = some c) ∧
    (∀ k c, getConn ev k = some c → getConn ev' k = some c) ∧
    ((keys ps).Nodup → (keys ev).Nodup → (keys ps').Nodup ∧ (keys ev').Nodup) ∧
    (∀ e ∈ log, ∃ p i n, e = LogEvent.discovered src p i n) := by
  induction descs with
  | nil =>
    intro ps ev ps' ev' log h
    simp only [runCallbacks, Option.some_inj, Prod.mk.injEq] at h
    obtain ⟨h₁, h₂, h₃⟩ := h
    subst h₁; subst h₂; subst h₃
    exact ⟨fun _ _ hk => hk, fun _ _ hk => hk, fun a b => ⟨a, b⟩, by simp⟩
  | cons d rest ih =>
    intro ps ev ps' ev' log h
    unfold runCallbacks at h
    rcases h₀ : on_discovery env src d ps ev with _ | ⟨ps₁, ev₁, log₁⟩
    · rw [h₀] at h; exact absurd h (by simp)
    · rw [h₀] at h
      dsimp only at h
      rcases h₁ : runCallbacks env src rest ps₁ ev₁ with _ | ⟨ps₂, ev₂, log₂⟩
      · rw [h₁] at h; exact absurd h (by simp)
      · rw [h₁] at h
        dsimp only at h
        simp only [Option.some_inj, Prod.mk.injEq] at h
        obtain ⟨hp, he, hl⟩ := h
        subst hp; subst he; subst hl
        obtain ⟨g₁, g₂⟩ := on_discovery_getConn env src d ps ev ps₁ ev₁ log₁ h₀
        obtain ⟨i₁, i₂, i₃, i₄⟩ := ih ps₁ ev₁ ps₂ ev₂ log₂ h₁
        refine ⟨fun k c hk => i₁ k c (g₁ k c hk), fun k c hk => i₂ k c (g₂ k c hk),
          fun hnp hne => ?_, fun e he => ?_⟩
        · obtain ⟨n₁, n₂⟩ := on_discovery_nodup env src d ps ev ps₁ ev₁ log₁ h₀ hnp hne
          exact i₃ n₁ n₂
        · rcases List.mem_append.mp he with he | he
          · exact on_discovery_log env src d ps ev ps₁ ev₁ log₁ h₀ e he
          · exact i₄ e he

/-- A non-panicking callback run over pattern-consistent descriptors
preserves the pattern partition of the two registries. -/
theorem runCallbacks_patternKeys (f : ServiceId → MessagingPattern) (env : Env) (src : Scope)
    (descs : List StaticConfig)
    (hdescs : ∀ cfg ∈ descs, cfg.messaging_pattern = f cfg.service_id) :
    ∀ ps ev ps' ev' log, runCallbacks env src descs ps ev = some (ps', ev', log) →
    (∀ k ∈ keys ps, f k = MessagingPattern.PublishSubscribe) →
    (∀ k ∈ keys ev, f k = MessagingPattern.Event) →
    (∀ k ∈ keys ps', f k = MessagingPattern.PublishSubscribe) ∧
    (∀ k ∈ keys ev', f k = MessagingPattern.Event) := by
  induction descs with
  | nil =>
    intro ps ev ps' ev' log h hps hev
    simp only [runCallbacks, Option.some_inj, Prod.mk.injEq] at h
    obtain ⟨h₁, h₂, -⟩ := h
    subst h₁; subst h₂
    exact ⟨hps, hev⟩
  | cons d rest ih =>
    intro ps ev ps' ev' log h hps hev
    unfold runCallbacks at h
    rcases h₀ : on_discovery env src d ps ev with _ | ⟨ps₁, ev₁, log₁⟩
    · rw [h₀] at h; exact absurd h (by simp)
    · rw [h₀] at h
      dsimp only at h
      rcases h₁ : runCallbacks env src rest ps₁ ev₁ with _ | ⟨ps₂, ev₂, log₂⟩
      · rw [h₁] at h; exact absurd h (by simp)
      · rw [h₁] at h
        dsimp only at h
        simp only [Option.some_inj, Prod.mk.injEq] at h
        obtain ⟨hp, he, -⟩ := h
        subst hp; subst he
        obtain ⟨j₁, j₂⟩ := on_discovery_patternKeys f env src d ps ev ps₁ ev₁ log₁ h₀
          (hdescs d (by simp)) hps hev
        exact ih (fun cfg hc => hdescs cfg (List.mem_cons_of_mem d hc))
          ps₁ ev₁ ps₂ ev₂ log₂ h₁ j₁ j₂

/-! ### `discover` lemmas -/

/-- Preservation properties of the zenoh half of `discover`: existing
entries survive, no-duplicate keys survive, and for pattern-consistent
remote descriptors the pattern partition survives. -/
theorem discoverZenohBranch_state (env : Env) (t : Tunnel) (scope : Scope)
    (z : DiscoverySource) (log : List LogEvent) (t' : Tunnel)
    (h : stateOf (discoverZenohBranch env t scope z log) = some t') :
    (∀ k c, getConn t.publish_subscribe_connectons k = some c →
      getConn t'.publish_subscribe_connectons k = some c) ∧
    (∀ k c, getConn t.event_connections k = some c →
      getConn t'.event_connections k = some c) ∧
    ((keys t.publish_subscribe_connectons).Nodup → (keys t.event_connections).Nodup →
      (keys t'.publish_subscribe_connectons).Nodup ∧ (keys t'.event_connections).Nodup) ∧
    (∀ f : ServiceId → MessagingPattern,
      (∀ cfg ∈ z.yielded, cfg.messaging_pattern = f cfg.service_id) →
      (∀ k ∈ keys t.publish_subscribe_connectons, f k = MessagingPattern.PublishSubscribe) →
      (∀ k ∈ keys t.event_connections, f k = MessagingPattern.Event) →
      (∀ k ∈ keys t'.publish_subscribe_connectons, f k = MessagingPattern.PublishSubscribe) ∧
      (∀ k ∈ keys t'.event_connections, f k = MessagingPattern.Event)) := by
  unfold discoverZenohBranch at h
  by_cases hs : scope = Scope.Zenoh ∨ scope = Scope.Both
  · rw [if_pos hs] at h
    rcases hrc : runCallbacks env Scope.Zenoh z.yielded t.publish_subscribe_connectons
        t.event_connections with _ | ⟨ps, ev, log₂⟩
    · rw [hrc] at h
      simp [stateOf] at h
    · rw [hrc] at h
      dsimp only at h
      have ht' : t' = { t with publish_subscribe_connectons := ps, event_connections := ev } := by
        by_cases hf : z.fails = true
        · rw [if_pos hf] at h
          simp only [stateOf, Option.some_inj] at h
          exact h.symm
        · rw [if_neg hf] at h
          simp only [stateOf, Option.some_inj] at h
          exact h.symm
      subst ht'
      obtain ⟨g₁, g₂, g₃, -⟩ := runCallbacks_spec env Scope.Zenoh z.yielded
        t.publish_subscribe_connectons t.event_connections ps ev log₂ hrc
      refine ⟨g₁, g₂, g₃, ?_⟩
      intro f hcons hps hev
      exact runCallbacks_patternKeys f env Scope.Zenoh z.yielded hcons
        t.publish_subscribe_connectons t.event_connections ps ev log₂ hrc hps hev
  · rw [if_neg hs] at h
    simp only [stateOf, Option.some_inj] at h
    subst h
    exact ⟨fun _ _ hk => hk, fun _ _ hk => hk, fun a b => ⟨a, b⟩,
      fun f _ hps hev => ⟨hps, hev⟩⟩

/-- Preservation properties of a whole surviving `discover` call. -/
theorem discover_state (env : Env) (t : Tunnel) (scope : Scope)
    (i z : DiscoverySource) (t' : Tunnel)
    (h : stateOf (discover env t scope i z) = some t') :
    (∀ k c, getConn t.publish_subscribe_connectons k = some c →
      getConn t'.publish_subscribe_connectons k = some c) ∧
    (∀ k c, getConn t.event_connections k = some c →
      getConn t'.event_connections k = some c) ∧
    ((keys t.publish_subscribe_connectons).Nodup → (keys t.event_connections).Nodup →
      (keys t'.publish_subscribe_connectons).Nodup ∧ (keys t'.event_connections).Nodup) ∧
    (∀ f : ServiceId → MessagingPattern,
      (∀ cfg ∈ i.yielded, cfg.messaging_pattern = f cfg.service_id) →
      (∀ cfg ∈ z.yielded, cfg.messaging_pattern = f cfg.service_id) →
      (∀ k ∈ keys t.publish_subscribe_connectons, f k = MessagingPattern.PublishSubscribe) →
      (∀ k ∈ keys t.event_connections, f k = MessagingPattern.Event) →
      (∀ k ∈ keys t'.publish_subscribe_connectons, f k = MessagingPattern.PublishSubscribe) ∧
      (∀ k ∈ keys t'.event_connections, f k = MessagingPattern.Event)) := by
  unfold discover at h
  by_cases hs : scope = Scope.Iceoryx ∨ scope = Scope.Both
  · rw [if_pos hs] at h
    rcases hrc : runCallbacks env Scope.Iceoryx i.yielded t.publish_subscribe_connectons
        t.event_connections with _ | ⟨ps, ev, log₁⟩
    · rw [hrc] at h
      simp [stateOf] at h
    · rw [hrc] at h
      dsimp only at h
      obtain ⟨g₁, g₂, g₃, -⟩ := runCallbacks_spec env Scope.Iceoryx i.yielded
        t.publish_subscribe_connectons t.event_connections ps ev log₁ hrc
      have hpat := fun (f : ServiceId → MessagingPattern)
          (hcons : ∀ cfg ∈ i.yielded, cfg.messaging_pattern = f cfg.service_id) =>
        runCallbacks_patternKeys f env Scope.Iceoryx i.yielded hcons
          t.publish_subscribe_connectons t.event_connections ps ev log₁ hrc
      by_cases hf : i.fails = true
      · rw [if_pos hf] at h
        simp only [stateOf, Option.some_inj] at h
        subst h
        refine ⟨g₁, g₂, g₃, ?_⟩
        intro f hci hcz hps hev
        exact hpat f hci hps hev
      · rw [if_neg hf] at h
        obtain ⟨b₁, b₂, b₃, b₄⟩ := discoverZenohBranch_state env
          { t with publish_subscribe_connectons := ps, event_connections := ev }
          scope z (LogEvent.invokeSource Scope.Iceoryx :: log₁) t' h
        refine ⟨fun k c hk => b₁ k c (g₁ k c hk), fun k c hk => b₂ k c (g₂ k c hk),
          fun hnp hne => ?_, fun f hci hcz hps hev => ?_⟩
        · obtain ⟨n₁, n₂⟩ := g₃ hnp hne
          exact b₃ n₁ n₂
        · obtain ⟨j₁, j₂⟩ := hpat f hci hps hev
          exact b₄ f hcz j₁ j₂
  · rw [if_neg hs] at h
    obtain ⟨b₁, b₂, b₃, b₄⟩ := discoverZenohBranch_state env t scope z [] t' h
    exact ⟨b₁, b₂, b₃, fun f hci hcz hps hev => b₄ f hcz hps hev⟩

/-! ### Reachable tunnel states -/

theorem reaches_getConn (P : DiscoverySource → Prop) (t t' : Tunnel)
    (h : Reaches P t t') :
    (∀ k c, getConn t.publish_subscribe_connectons k = some c →
      getConn t'.publish_subscribe_connectons k = some c) ∧
    (∀ k c, getConn t.event_connections k = some c →
      getConn t'.event_connections k = some c) := by
  induction h with
  | refl => exact ⟨fun _ _ hk => hk, fun _ _ hk => hk⟩
  | tail hab hbc ih =>
    rcases hbc with ⟨env, scope, i, z, _, _, hi, hz, hd⟩ | _
    · obtain ⟨g₁, g₂, -, -⟩ := discover_state env _ scope i z _ hd
      exact ⟨fun k cn hk => g₁ k cn (ih.1 k cn hk), fun k cn hk => g₂ k cn (ih.2 k cn hk)⟩
    · exact ih

theorem reaches_WF (P : DiscoverySource → Prop) (t t' : Tunnel)
    (h : Reaches P t t') (hwf : WF t) : WF t' := by
  induction h with
  | refl => exact hwf
  | tail hab hbc ih =>
    rcases hbc with ⟨env, scope, i, z, _, _, hi, hz, hd⟩ | _
    · obtain ⟨-, -, g₃, -⟩ := discover_state env _ scope i z _ hd
      obtain ⟨n₁, n₂⟩ := g₃ ih.1 ih.2
      exact ⟨n₁, n₂⟩
    · exact ih

theorem reaches_patternPartition (f : ServiceId → MessagingPattern) (t t' : Tunnel)
    (h : Reaches (ConsistentSource f) t t') (hp : PatternPartition f t) :
    PatternPartition f t' := by
  induction h with
  | refl => exact hp
  | tail hab hbc ih =>
    rcases hbc with ⟨env, scope, i, z, _, _, hi, hz, hd⟩ | _
    · obtain ⟨-, -, -, g₄⟩ := discover_state env _ scope i z _ hd
      obtain ⟨j₁, j₂⟩ := g₄ f hi hz ih.1 ih.2
      exact ⟨j₁, j₂⟩
    · exact ih

/-! ### `propagate` lemmas -/

theorem count_propagateCalled_self (pat : MessagingPattern) (m : Registry) (k : ServiceId) :
    (m.flatMap (propagateEntry pat)).count (LogEvent.propagateCalled pat k) =
      (keys m).count k := by
  induction m with
  | nil => simp [keys]
  | cons p rest ih =>
    rcases p with ⟨k', c⟩
    rcases hok : c.propagateOk with _ | _ <;>
      by_cases hk : k' = k <;>
        simp [propagateEntry, keys, List.count_cons, hok, hk, ih]

theorem count_propagateCalled_other (pat pat' : MessagingPattern) (hne : pat' ≠ pat)
    (m : Registry) (k : ServiceId) :
    (m.flatMap (propagateEntry pat')).count (LogEvent.propagateCalled pat k) = 0 := by
  have hne' : pat ≠ pat' := Ne.symm hne
  induction m with
  | nil => simp
  | cons p rest ih =>
    rcases p with ⟨k', c⟩
    rcases hok : c.propagateOk with _ | _ <;>
      simp [propagateEntry, hok, List.count_cons, ih, hne']

theorem countP_propagate_calls (pat : MessagingPattern) (m : Registry) :
    (m.flatMap (propagateEntry pat)).countP isPropagateCall = m.length := by
  induction m with
  | nil => simp
  | cons p rest ih =>
    rcases p with ⟨k', c⟩
    rcases hok : c.propagateOk with _ | _ <;>
      simp [propagateEntry, hok, List.countP_append, List.countP_cons, isPropagateCall, ih]

theorem propagateFailed_mem (pat : MessagingPattern) (m : Registry)
    (p : ServiceId × Connection) (hp : p ∈ m) (hf : p.2.propagateOk = false) :
    LogEvent.propagateFailed p.1 ∈ m.flatMap (propagateEntry pat) := by
  rw [List.mem_flatMap]
  exact ⟨p, hp, by simp [propagateEntry, hf]⟩

/-! ### `create` lemmas -/

/-- A successful `create` performed all four construction steps and
starts with both registries empty. -/
theorem create_ok_spec (cenv : CreateEnv) (t : Tunnel) (h : create cenv = CreateResult.ok t) :
    cenv.open_z_session = some t.z_session ∧
    cenv.create_z_discovery t.z_session = some t.z_discovery ∧
    cenv.create_iox_node = some t.iox_node ∧
    cenv.create_iox_discovery t.iox_node = some t.iox_discovery ∧
    t.publish_subscribe_connectons = [] ∧ t.event_connections = [] := by
  unfold create at h
  rcases h₁ : cenv.open_z_session with _ | s <;> rw [h₁] at h
  · exact absurd h (by simp)
  · dsimp only at h
    rcases h₂ : cenv.create_z_discovery s with _ | zd <;> rw [h₂] at h
    · exact absurd h (by simp)
    · dsimp only at h
      rcases h₃ : cenv.create_iox_node with _ | n <;> rw [h₃] at h
      · exact absurd h (by simp)
      · dsimp only at h
        rcases h₄ : cenv.create_iox_discovery n with _ | ioxd <;> rw [h₄] at h
        · exact absurd h (by simp)
        · dsimp only at h
          simp only [CreateResult.ok.injEq] at h
          subst h
          exact ⟨rfl, h₂, rfl, h₄, rfl, rfl⟩

/-- A descriptor whose `(pattern, identity)` is already registered is
a registry-preserving no-op of `on_discovery`, whatever the connection
constructors are. -/
theorem on_discovery_noop_of_registered (env : Env) (src : Scope) (cfg : StaticConfig)
    (ps ev : Registry)
    (h : (cfg.messaging_pattern = MessagingPattern.PublishSubscribe ∧
          containsKey ps cfg.service_id = true) ∨
         (cfg.messaging_pattern = MessagingPattern.Event ∧
          containsKey ev cfg.service_id = true)) :
    on_discovery env src cfg ps ev = some (ps, ev, []) := by
  rcases h with ⟨hm, hc⟩ | ⟨hm, hc⟩ <;> unfold on_discovery <;> rw [hm] <;> simp [hc]

/-! ### Scope shape lemmas for `discover` -/

theorem discoverZenohBranch_iceoryx (env : Env) (t : Tunnel) (z : DiscoverySource)
    (log : List LogEvent) :
    discoverZenohBranch env t Scope.Iceoryx z log = DiscoverResult.ok t log := by
  unfold discoverZenohBranch
  rw [if_neg (by decide)]

theorem discover_scope_zenoh (env : Env) (t : Tunnel) (i z : DiscoverySource) :
    discover env t Scope.Zenoh i z = discoverZenohBranch env t Scope.Zenoh z [] := by
  unfold discover
  rw [if_neg (by decide)]

theorem discover_scope_iceoryx (env : Env) (t : Tunnel) (i z : DiscoverySource) :
    discover env t Scope.Iceoryx i z =
      match runCallbacks env Scope.Iceoryx i.yielded t.publish_subscribe_connectons
          t.event_connections with
      | none => DiscoverResult.panicked
      | some (ps, ev, l) =>
        if i.fails then
          DiscoverResult.err
            { t with publish_subscribe_connectons := ps, event_connections := ev }
            (LogEvent.invokeSource Scope.Iceoryx :: l)
        else
          DiscoverResult.ok
            { t with publish_subscribe_connectons := ps, event_connections := ev }
            (LogEvent.invokeSource Scope.Iceoryx :: l) := by
  unfold discover
  rw [if_pos (Or.inl rfl)]
  rcases hrc : runCallbacks env Scope.Iceoryx i.yielded t.publish_subscribe_connectons
      t.event_connections with _ | ⟨ps, ev, l⟩
  · rfl
  · dsimp only
    rcases hf : i.fails with _ | _ <;> simp [hf, discoverZenohBranch_iceoryx]

/-! ### Claim theorems -/

/-- C10: a freshly created tunnel bridges nothing: after every
successful `Tunnel::create` both connection registries are empty, so
`tunneled_services()` invoked before any `discover` call returns the
empty list. -/
theorem C10_fresh_tunnel_empty (cenv : CreateEnv) (t : Tunnel)
    (h : create cenv = CreateResult.ok t) :
    t.publish_subscribe_connectons = [] ∧ t.event_connections = [] ∧
    tunneled_services t = [] := by
  obtain ⟨-, -, -, -, h₅, h₆⟩ := create_ok_spec cenv t h
  exact ⟨h₅, h₆, by simp [tunneled_services, h₅, h₆]⟩

theorem C10_fresh_tunnel_empty_witness :
    tun₀.publish_subscribe_connectons = [] ∧ tun₀.event_connections = [] ∧
    tunneled_services tun₀ = [] :=
  C10_fresh_tunnel_empty cenv₀ tun₀ rfl

/-- C8: the function `Tunnel::create` performs its four construction steps and,
if any fails, returns `CreationError` with no partial tunnel; every
zenoh session opened before the failing step is in the list of
sessions released (dropped per Rust scoping) before the error is
returned — in particular it is not leaked when local-node construction
fails; on success all four steps ran and the registries start empty. -/
theorem C8_create_rollback (cenv : CreateEnv) :
    ((cenv.open_z_session = none ∨
      (∃ s, cenv.open_z_session = some s ∧ cenv.create_z_discovery s = none) ∨
      cenv.create_iox_node = none ∨
      (∃ n, cenv.create_iox_node = some n ∧ cenv.create_iox_discovery n = none)) →
      ∃ rel, create cenv = CreateResult.err CreationError.Error rel) ∧
    (∀ e rel s, create cenv = CreateResult.err e rel → cenv.open_z_session = some s →
      s ∈ rel) ∧
    (∀ t, create cenv = CreateResult.ok t →
      cenv.open_z_session = some t.z_session ∧
      cenv.create_z_discovery t.z_session = some t.z_discovery ∧
      cenv.create_iox_node = some t.iox_node ∧
      cenv.create_iox_discovery t.iox_node = some t.iox_discovery ∧
      t.publish_subscribe_connectons = [] ∧ t.event_connections = []) := by
  refine ⟨fun h => ?_, fun e rel s hcr hs => ?_, fun t ht => create_ok_spec cenv t ht⟩
  · unfold create
    rcases h₁ : cenv.open_z_session with _ | s
    · exact ⟨[], rfl⟩
    · dsimp only
      rcases h₂ : cenv.create_z_discovery s with _ | zd
      · exact ⟨[s], rfl⟩
      · dsimp only
        rcases h₃ : cenv.create_iox_node with _ | n
        · exact ⟨[s], rfl⟩
        · dsimp only
          rcases h₄ : cenv.create_iox_discovery n with _ | d
          · exact ⟨[s], rfl⟩
          · exfalso
            rcases h with h | ⟨s', hs', hzd⟩ | h | ⟨n', hn', hd⟩
            · rw [h₁] at h; cases h
            · rw [h₁] at hs'
              injection hs' with hss
              subst hss
              rw [h₂] at hzd; cases hzd
            · rw [h₃] at h; cases h
            · rw [h₃] at hn'
              injection hn' with hnn
              subst hnn
              rw [h₄] at hd; cases hd
  · unfold create at hcr
    rw [hs] at hcr
    dsimp only at hcr
    rcases h₂ : cenv.create_z_discovery s with _ | zd <;> rw [h₂] at hcr <;> dsimp only at hcr
    · simp only [CreateResult.err.injEq] at hcr
      rw [← hcr.2]
      simp
    · rcases h₃ : cenv.create_iox_node with _ | n <;> rw [h₃] at hcr <;> dsimp only at hcr
      · simp only [CreateResult.err.injEq] at hcr
        rw [← hcr.2]
        simp
      · rcases h₄ : cenv.create_iox_discovery n with _ | d <;> rw [h₄] at hcr <;>
          dsimp only at hcr
        · simp only [CreateResult.err.injEq] at hcr
          rw [← hcr.2]
          simp
        · exact absurd hcr (by simp)

theorem C8_create_rollback_witness :
    (∃ rel, create cenvNodeFails = CreateResult.err CreationError.Error rel) ∧
    ZSession.mk 7 ∈ [ZSession.mk 7] :=
  ⟨(C8_create_rollback cenvNodeFails).1 (Or.inr (Or.inr (Or.inl rfl))),
   (C8_create_rollback cenvNodeFails).2.1 CreationError.Error [ZSession.mk 7]
     (ZSession.mk 7) rfl rfl⟩

/-- C3: pattern partitioning of the reconciliation step: a
`PublishSubscribe` descriptor can only extend the publish-subscribe
registry and leaves the event registry untouched; an `Event`
descriptor can only extend the event registry and leaves the
publish-subscribe registry untouched; any other pattern creates no
connection, modifies neither registry, and raises no error (and does
not panic). -/
theorem C3_pattern_partitioning (env : Env) (src : Scope) (cfg : StaticConfig)
    (ps ev : Registry) :
    (cfg.messaging_pattern = MessagingPattern.PublishSubscribe →
      ∀ ps' ev' log, on_discovery env src cfg ps ev = some (ps', ev', log) →
        ev' = ev ∧ (ps' = ps ∨ ∃ c, ps' = ps ++ [(cfg.service_id, c)])) ∧
    (cfg.messaging_pattern = MessagingPattern.Event →
      ∀ ps' ev' log, on_discovery env src cfg ps ev = some (ps', ev', log) →
        ps' = ps ∧ (ev' = ev ∨ ∃ c, ev' = ev ++ [(cfg.service_id, c)])) ∧
    (cfg.messaging_pattern ≠ MessagingPattern.PublishSubscribe →
      cfg.messaging_pattern ≠ MessagingPattern.Event →
      on_discovery env src cfg ps ev = some (ps, ev, [])) := by
  refine ⟨fun hm ps' ev' log h => ?_, fun hm ps' ev' log h => ?_, fun h₁ h₂ => ?_⟩
  · rcases on_discovery_spec env src cfg ps ev ps' ev' log h with
      ⟨a₁, a₂, -⟩ | ⟨c, hp, -, -, a₁, a₂, -⟩ | ⟨c, hp, -, -, a₁, a₂, -⟩
    · exact ⟨a₂, Or.inl a₁⟩
    · exact ⟨a₂, Or.inr ⟨c, a₁⟩⟩
    · rw [hm] at hp
      cases hp
  · rcases on_discovery_spec env src cfg ps ev ps' ev' log h with
      ⟨a₁, a₂, -⟩ | ⟨c, hp, -, -, a₁, a₂, -⟩ | ⟨c, hp, -, -, a₁, a₂, -⟩
    · exact ⟨a₁, Or.inl a₂⟩
    · rw [hm] at hp
      cases hp
    · exact ⟨a₁, Or.inr ⟨c, a₂⟩⟩
  · unfold on_discovery
    rcases hm : cfg.messaging_pattern with _ | _ | _ | _
    · exact absurd hm h₁
    · exact absurd hm h₂
    · rfl
    · rfl

theorem C3_pattern_partitioning_witness :
    on_discovery envOk Scope.Iceoryx cfgU [] [] = some ([], [], []) :=
  (C3_pattern_partitioning envOk Scope.Iceoryx cfgU [] []).2.2 (by decide) (by decide)

/-- C9: bridged is terminal: once a `(pattern, identity)` pair has
a connection in its registry, no later sequence of `discover` and
`propagate` calls removes or replaces that entry — the registries grow
monotonically under every sequence of operations. -/
theorem C9_bridged_terminal (P : DiscoverySource → Prop) (t t' : Tunnel)
    (id : ServiceId) (c : Connection) (h : Reaches P t t') :
    (getConn t.publish_subscribe_connectons id = some c →
      getConn t'.publish_subscribe_connectons id = some c) ∧
    (getConn t.event_connections id = some c →
      getConn t'.event_connections id = some c) :=
  ⟨fun hk => (reaches_getConn P t t' h).1 id c hk,
   fun hk => (reaches_getConn P t t' h).2 id c hk⟩

theorem C9_bridged_terminal_witness :
    getConn tunAB.publish_subscribe_connectons "svc-a" = some ⟨cfgA, true⟩ :=
  (C9_bridged_terminal (fun _ => True) tunA tunAB "svc-a" ⟨cfgA, true⟩
    (Relation.ReflTransGen.single
      (Step.discovery envOk Scope.Iceoryx srcB srcNone tunA tunAB trivial trivial
        (by decide)))).1 (by decide)

/-- C2 (code bug): section 4.2 of the spec requires a failed connection
creation to surface as a recoverable per-service error that aborts
neither the reconciliation of other services in the same `discover`
call nor the registry; the code instead `.unwrap()`s the creation
result (tunnel.rs lines 264-269 and 283-285), so a single failing
creator panics the whole process: with two local publish-subscribe
services of which the first fails to bridge, `discover` panics, no
`DiscoveryError` is returned, and the second service is never
bridged. -/
theorem C2_creator_failure_panics :
    discover envPubSubFails tun₀ Scope.Both ⟨[cfgA, cfgB], false⟩ srcNone =
      DiscoverResult.panicked ∧
    on_discovery envPubSubFails Scope.Iceoryx cfgA [] [] = none :=
  ⟨rfl, rfl⟩

/-- C1: reconciliation is idempotent: in every tunnel state
reachable from a successful `create` by any sequence of `discover`
(and `propagate`) calls, each registry holds at most one connection
per service identity; when a descriptor's `(pattern, identity)`
already has a live entry, that registry holds exactly one such entry
and `on_discovery` returns with both registries unchanged and no new
log — for every connection-constructor environment, so no creator is
invoked. -/
theorem C1_idempotent_reconciliation (cenv : CreateEnv) (t₀ t : Tunnel)
    (P : DiscoverySource → Prop) (env : Env) (src : Scope) (cfg : StaticConfig)
    (hc : create cenv = CreateResult.ok t₀) (hr : Reaches P t₀ t) :
    ((keys t.publish_subscribe_connectons).count cfg.service_id ≤ 1 ∧
     (keys t.event_connections).count cfg.service_id ≤ 1) ∧
    (cfg.messaging_pattern = MessagingPattern.PublishSubscribe →
      containsKey t.publish_subscribe_connectons cfg.service_id = true →
      (keys t.publish_subscribe_connectons).count cfg.service_id = 1 ∧
      on_discovery env src cfg t.publish_subscribe_connectons t.event_connections =
        some (t.publish_subscribe_connectons, t.event_connections, [])) ∧
    (cfg.messaging_pattern = MessagingPattern.Event →
      containsKey t.event_connections cfg.service_id = true →
      (keys t.event_connections).count cfg.service_id = 1 ∧
      on_discovery env src cfg t.publish_subscribe_connectons t.event_connections =
        some (t.publish_subscribe_connectons, t.event_connections, [])) := by
  obtain ⟨-, -, -, -, h₅, h₆⟩ := create_ok_spec cenv t₀ hc
  have hwf : WF t := reaches_WF P t₀ t hr ⟨by simp [h₅, keys], by simp [h₆, keys]⟩
  refine ⟨⟨List.nodup_iff_count_le_one.mp hwf.1 cfg.service_id,
    List.nodup_iff_count_le_one.mp hwf.2 cfg.service_id⟩,
    fun hm hcon => ?_, fun hm hcon => ?_⟩
  · exact ⟨List.count_eq_one_of_mem hwf.1 ((containsKey_iff _ _).mp hcon),
      on_discovery_noop_of_registered env src cfg _ _ (Or.inl ⟨hm, hcon⟩)⟩
  · exact ⟨List.count_eq_one_of_mem hwf.2 ((containsKey_iff _ _).mp hcon),
      on_discovery_noop_of_registered env src cfg _ _ (Or.inr ⟨hm, hcon⟩)⟩

theorem C1_idempotent_reconciliation_witness :
    (keys tunA.publish_subscribe_connectons).count cfgA.service_id = 1 ∧
    on_discovery envOk Scope.Zenoh cfgA tunA.publish_subscribe_connectons
      tunA.event_connections =
      some (tunA.publish_subscribe_connectons, tunA.event_connections, []) :=
  have h := C1_idempotent_reconciliation cenv₀ tun₀ tunA (fun _ => True) envOk Scope.Zenoh
    cfgA rfl
    (Relation.ReflTransGen.single
      (Step.discovery envOk Scope.Iceoryx srcA srcNone tun₀ tunA trivial trivial (by decide)))
  ⟨(h.2.1 rfl (by decide)).1, (h.2.1 rfl (by decide)).2⟩

/-- C6: the function `propagate` never fails as a whole (in the embedding it
returns only its event trace) and is failure-isolated: in a
well-formed tunnel state, every connection of both registries receives
exactly one `propagate()` call per tick (the total number of issued
calls is the total number of registered connections), and every
failing connection is logged with its service identity while the
iteration still reaches every other connection. -/
theorem C6_propagate_isolation (t : Tunnel) (hwf : WF t) :
    (∀ p ∈ t.publish_subscribe_connectons,
      (propagate t).count
        (LogEvent.propagateCalled MessagingPattern.PublishSubscribe p.1) = 1 ∧
      (p.2.propagateOk = false → LogEvent.propagateFailed p.1 ∈ propagate t)) ∧
    (∀ p ∈ t.event_connections,
      (propagate t).count (LogEvent.propagateCalled MessagingPattern.Event p.1) = 1 ∧
      (p.2.propagateOk = false → LogEvent.propagateFailed p.1 ∈ propagate t)) ∧
    (propagate t).countP isPropagateCall =
      t.publish_subscribe_connectons.length + t.event_connections.length := by
  refine ⟨fun p hp => ⟨?_, fun hf => ?_⟩, fun p hp => ⟨?_, fun hf => ?_⟩, ?_⟩
  · rw [propagate, List.count_append, count_propagateCalled_self,
      count_propagateCalled_other MessagingPattern.PublishSubscribe MessagingPattern.Event
        (by decide),
      List.count_eq_one_of_mem hwf.1 (List.mem_map_of_mem _ hp)]
  · exact List.mem_append_left _
      (propagateFailed_mem MessagingPattern.PublishSubscribe _ p hp hf)
  · rw [propagate, List.count_append,
      count_propagateCalled_other MessagingPattern.Event MessagingPattern.PublishSubscribe
        (by decide),
      count_propagateCalled_self,
      List.count_eq_one_of_mem hwf.2 (List.mem_map_of_mem _ hp)]
  · exact List.mem_append_right _
      (propagateFailed_mem MessagingPattern.Event _ p hp hf)
  · rw [propagate, List.countP_append, countP_propagate_calls, countP_propagate_calls]

theorem C6_propagate_isolation_witness :
    (propagate tunMixed).count
      (LogEvent.propagateCalled MessagingPattern.PublishSubscribe "svc-a") = 1 ∧
    LogEvent.propagateFailed "svc-a" ∈ propagate tunMixed ∧
    (propagate tunMixed).count
      (LogEvent.propagateCalled MessagingPattern.PublishSubscribe "svc-b") = 1 ∧
    (propagate tunMixed).count
      (LogEvent.propagateCalled MessagingPattern.Event "svc-e") = 1 ∧
    (propagate tunMixed).countP isPropagateCall = 3 :=
  have h := C6_propagate_isolation tunMixed ⟨by decide, by decide⟩
  ⟨(h.1 ("svc-a", ⟨cfgA, false⟩) (by decide)).1,
   (h.1 ("svc-a", ⟨cfgA, false⟩) (by decide)).2 rfl,
   (h.1 ("svc-b", ⟨cfgB, true⟩) (by decide)).1,
   (h.2.1 ("svc-e", ⟨cfgE, true⟩) (by decide)).1,
   h.2.2⟩

/-- C7: the function `tunneled_services()` is the union snapshot: in every
tunnel state reachable from a successful `create` by `discover` calls
whose discovery sources are pattern-consistent (each service identity
carries one fixed messaging pattern, per the spec's globally-unique
`ServiceIdentity`), the returned list is exactly the identities of
the two registries — membership is the union of the registries — and
it has no duplicates.  It is a pure function of the tunnel state
(`&self` in the source), so it has no side effects. -/
theorem C7_tunneled_services_snapshot (f : ServiceId → MessagingPattern)
    (cenv : CreateEnv) (t₀ t : Tunnel)
    (hc : create cenv = CreateResult.ok t₀)
    (hr : Reaches (ConsistentSource f) t₀ t) :
    tunneled_services t =
      keys t.publish_subscribe_connectons ++ keys t.event_connections ∧
    (∀ x, x ∈ tunneled_services t ↔
      x ∈ keys t.publish_subscribe_connectons ∨ x ∈ keys t.event_connections) ∧
    (tunneled_services t).Nodup := by
  obtain ⟨-, -, -, -, h₅, h₆⟩ := create_ok_spec cenv t₀ hc
  have hwf : WF t := reaches_WF _ t₀ t hr ⟨by simp [h₅, keys], by simp [h₆, keys]⟩
  have hpp : PatternPartition f t :=
    reaches_patternPartition f t₀ t hr ⟨by simp [h₅, keys], by simp [h₆, keys]⟩
  have heq : tunneled_services t =
      keys t.publish_subscribe_connectons ++ keys t.event_connections := rfl
  refine ⟨heq, fun x => by rw [heq]; exact List.mem_append, ?_⟩
  rw [heq, List.nodup_append]
  refine ⟨hwf.1, hwf.2, fun x hx₁ hx₂ => ?_⟩
  have e₁ := hpp.1 x hx₁
  have e₂ := hpp.2 x hx₂
  rw [e₁] at e₂
  cases e₂

theorem C7_tunneled_services_snapshot_witness :
    tunneled_services tunAE = ["svc-a", "svc-e"] ∧ (tunneled_services tunAE).Nodup :=
  have h := C7_tunneled_services_snapshot patOf cenv₀ tun₀ tunAE rfl
    (Relation.ReflTransGen.single
      (Step.discovery envOk Scope.Both srcA srcE tun₀ tunAE
        (by intro cfg hcfg
            simp only [srcA, List.mem_singleton] at hcfg
            subst hcfg
            decide)
        (by intro cfg hcfg
            simp only [srcE, List.mem_singleton] at hcfg
            subst hcfg
            decide)
        (by decide)))
  ⟨by rw [h.1]; rfl, h.2.2⟩

/-- C4: scope filtering and ordering: `discover(Iceoryx)` never
invokes the remote (zenoh) discovery source — its outcome does not
depend on it and its trace holds no remote invocation;
`discover(Zenoh)` never invokes the local source, symmetrically; and a
successful `discover(Both)` first runs local discovery to completion
(all its reconciliations included), then runs remote discovery from
the registries local discovery produced, the trace interleaving them
in that order. -/
theorem C4_scope_filtering_and_ordering (env : Env) (t : Tunnel) (i z : DiscoverySource) :
    (∀ z', discover env t Scope.Iceoryx i z = discover env t Scope.Iceoryx i z') ∧
    (LogEvent.invokeSource Scope.Zenoh ∉ logOf (discover env t Scope.Iceoryx i z)) ∧
    (∀ i', discover env t Scope.Zenoh i z = discover env t Scope.Zenoh i' z) ∧
    (LogEvent.invokeSource Scope.Iceoryx ∉ logOf (discover env t Scope.Zenoh i z)) ∧
    (∀ t' log, discover env t Scope.Both i z = DiscoverResult.ok t' log →
      ∃ ps₁ ev₁ l₁ l₂,
        runCallbacks env Scope.Iceoryx i.yielded t.publish_subscribe_connectons
          t.event_connections = some (ps₁, ev₁, l₁) ∧
        runCallbacks env Scope.Zenoh z.yielded ps₁ ev₁ =
          some (t'.publish_subscribe_connectons, t'.event_connections, l₂) ∧
        log = LogEvent.invokeSource Scope.Iceoryx :: l₁ ++
          LogEvent.invokeSource Scope.Zenoh :: l₂ ∧
        (∀ e ∈ l₁, ∃ p id n, e = LogEvent.discovered Scope.Iceoryx p id n) ∧
        (∀ e ∈ l₂, ∃ p id n, e = LogEvent.discovered Scope.Zenoh p id n)) := by
  refine ⟨fun z' => by rw [discover_scope_iceoryx, discover_scope_iceoryx], ?_,
    fun i' => by rw [discover_scope_zenoh, discover_scope_zenoh], ?_, ?_⟩
  · rw [discover_scope_iceoryx]
    rcases hrc : runCallbacks env Scope.Iceoryx i.yielded t.publish_subscribe_connectons
        t.event_connections with _ | ⟨ps, ev, l⟩
    · simp [logOf]
    · have hlog := (runCallbacks_spec env Scope.Iceoryx i.yielded _ _ _ _ _ hrc).2.2.2
      have hnot : LogEvent.invokeSource Scope.Zenoh ∉
          LogEvent.invokeSource Scope.Iceoryx :: l := by
        intro hmem
        rcases List.mem_cons.mp hmem with h | h
        · simp at h
        · obtain ⟨p, id, n, he⟩ := hlog _ h
          simp at he
      rcases hf : i.fails with _ | _ <;> simp only [hf, Bool.false_eq_true, if_false, if_true,
        logOf] <;> exact hnot
  · rw [discover_scope_zenoh]
    unfold discoverZenohBranch
    rw [if_pos (Or.inl rfl)]
    rcases hrc : runCallbacks env Scope.Zenoh z.yielded t.publish_subscribe_connectons
        t.event_connections with _ | ⟨ps, ev, l⟩
    · simp [logOf]
    · dsimp only
      have hlog := (runCallbacks_spec env Scope.Zenoh z.yielded _ _ _ _ _ hrc).2.2.2
      have hnot : LogEvent.invokeSource Scope.Iceoryx ∉
          ([] : List LogEvent) ++ LogEvent.invokeSource Scope.Zenoh :: l := by
        rw [List.nil_append]
        intro hmem
        rcases List.mem_cons.mp hmem with h | h
        · simp at h
        · obtain ⟨p, id, n, he⟩ := hlog _ h
          simp at he
      rcases hf : z.fails with _ | _ <;> simp only [hf, Bool.false_eq_true, if_false, if_true,
        logOf] <;> exact hnot
  · intro t' log h
    unfold discover at h
    rw [if_pos (Or.inr rfl)] at h
    rcases hrc : runCallbacks env Scope.Iceoryx i.yielded t.publish_subscribe_connectons
        t.event_connections with _ | ⟨ps₁, ev₁, l₁⟩ <;> rw [hrc] at h
    · exact absurd h (by simp)
    · dsimp only at h
      rcases hf : i.fails with _ | _
      · rw [hf] at h
        simp only [Bool.false_eq_true, if_false] at h
        unfold discoverZenohBranch at h
        rw [if_pos (Or.inr rfl)] at h
        rcases hrz : runCallbacks env Scope.Zenoh z.yielded ps₁ ev₁ with _ | ⟨ps₂, ev₂, l₂⟩ <;>
          rw [hrz] at h
        · exact absurd h (by simp)
        · dsimp only at h
          rcases hzf : z.fails with _ | _
          · rw [hzf] at h
            simp only [Bool.false_eq_true, if_false, DiscoverResult.ok.injEq] at h
            obtain ⟨ht', hlog⟩ := h
            subst ht'
            subst hlog
            obtain ⟨-, -, -, e₁⟩ :=
              runCallbacks_spec env Scope.Iceoryx i.yielded _ _ _ _ _ hrc
            obtain ⟨-, -, -, e₂⟩ :=
              runCallbacks_spec env Scope.Zenoh z.yielded _ _ _ _ _ hrz
            exact ⟨ps₁, ev₁, l₁, l₂, rfl, hrz, by rw [List.cons_append], e₁, e₂⟩
          · rw [hzf] at h
            simp only [if_true] at h
            exact absurd h (by simp)
      · rw [hf] at h
        simp only [if_true] at h
        exact absurd h (by simp)

theorem C4_scope_filtering_and_ordering_witness :
    ∃ ps₁ ev₁ l₁ l₂,
      runCallbacks envOk Scope.Iceoryx srcA.yielded tun₀.publish_subscribe_connectons
        tun₀.event_connections = some (ps₁, ev₁, l₁) ∧
      runCallbacks envOk Scope.Zenoh srcE.yielded ps₁ ev₁ =
        some (tunAE.publish_subscribe_connectons, tunAE.event_connections, l₂) ∧
      [LogEvent.invokeSource Scope.Iceoryx,
       LogEvent.discovered Scope.Iceoryx MessagingPattern.PublishSubscribe "svc-a"
         "service-a",
       LogEvent.invokeSource Scope.Zenoh,
       LogEvent.discovered Scope.Zenoh MessagingPattern.Event "svc-e" "service-e"] =
        LogEvent.invokeSource Scope.Iceoryx :: l₁ ++
          LogEvent.invokeSource Scope.Zenoh :: l₂ ∧
      (∀ e ∈ l₁, ∃ p id n, e = LogEvent.discovered Scope.Iceoryx p id n) ∧
      (∀ e ∈ l₂, ∃ p id n, e = LogEvent.discovered Scope.Zenoh p id n) :=
  (C4_scope_filtering_and_ordering envOk tun₀ srcA srcE).2.2.2.2 tunAE
    [LogEvent.invokeSource Scope.Iceoryx,
     LogEvent.discovered Scope.Iceoryx MessagingPattern.PublishSubscribe "svc-a" "service-a",
     LogEvent.invokeSource Scope.Zenoh,
     LogEvent.discovered Scope.Zenoh MessagingPattern.Event "svc-e" "service-e"]
    (by decide)

/-- C5: when the local discovery source fails during
`discover(Both)`, the call returns `DiscoveryError` at once: the
outcome is an `err` carrying exactly the local reconciliation trace,
it is independent of the remote source (which is never invoked — no
remote invocation appears in the trace), and every connection
registered before the failure, including those inserted by callbacks
of the failing scan, remains in the registries. -/
theorem C5_local_failure_isolated (env : Env) (t : Tunnel) (i z : DiscoverySource)
    (ps ev : Registry) (l : List LogEvent)
    (hf : i.fails = true)
    (hrc : runCallbacks env Scope.Iceoryx i.yielded t.publish_subscribe_connectons
      t.event_connections = some (ps, ev, l)) :
    discover env t Scope.Both i z =
      DiscoverResult.err
        { t with publish_subscribe_connectons := ps, event_connections := ev }
        (LogEvent.invokeSource Scope.Iceoryx :: l) ∧
    (∀ z', discover env t Scope.Both i z' = discover env t Scope.Both i z) ∧
    LogEvent.invokeSource Scope.Zenoh ∉ logOf (discover env t Scope.Both i z) ∧
    (∀ k c, getConn t.publish_subscribe_connectons k = some c → getConn ps k = some c) ∧
    (∀ k c, getConn t.event_connections k = some c → getConn ev k = some c) := by
  have hshape : ∀ z' : DiscoverySource, discover env t Scope.Both i z' =
      DiscoverResult.err
        { t with publish_subscribe_connectons := ps, event_connections := ev }
        (LogEvent.invokeSource Scope.Iceoryx :: l) := by
    intro z'
    unfold discover
    rw [if_pos (Or.inr rfl), hrc]
    dsimp only
    rw [if_pos hf]
  obtain ⟨g₁, g₂, -, hlog⟩ := runCallbacks_spec env Scope.Iceoryx i.yielded _ _ _ _ _ hrc
  refine ⟨hshape z, fun z' => by rw [hshape z', hshape z], ?_, g₁, g₂⟩
  rw [hshape z]
  intro hmem
  simp only [logOf, List.mem_cons] at hmem
  rcases hmem with h | h
  · simp at h
  · obtain ⟨p, id, n, he⟩ := hlog _ h
    simp at he

theorem C5_local_failure_isolated_witness :
    discover envOk tunA Scope.Both ⟨[cfgB], true⟩ srcE =
      DiscoverResult.err
        (⟨⟨0⟩, 0, 0, 0, tunAB.publish_subscribe_connectons, []⟩ : Tunnel)
        [LogEvent.invokeSource Scope.Iceoryx,
         LogEvent.discovered Scope.Iceoryx MessagingPattern.PublishSubscribe "svc-b"
           "service-b"] ∧
    getConn tunAB.publish_subscribe_connectons "svc-a" = some ⟨cfgA, true⟩ :=
  have h := C5_local_failure_isolated envOk tunA ⟨[cfgB], true⟩ srcE
    tunAB.publish_subscribe_connectons []
    [LogEvent.discovered Scope.Iceoryx MessagingPattern.PublishSubscribe "svc-b" "service-b"]
    rfl (by decide)
  ⟨h.1, h.2.2.2.1 "svc-a" ⟨cfgA, true⟩ (by decide)⟩

end ZenohTunnel
